import Mathlib

/-!
Verification of the physics simulation in `src/canvas.js`.

The circle bodies, the integrator, the wall resolver, the pairwise impulse
resolver, the world stepper and the capacity-bounded population are embedded
as Lean functions over exact reals, mirroring the JavaScript source line by
line.  The global CSS arena dimensions `state.w` / `state.h` are passed as
explicit parameters `w` / `h`.
-/

namespace Canvas

noncomputable section

/-- Gravity constant: `parseFloat(css --gravity) || 1600`; the stylesheet
fallback value `1600` px/s² is used. -/
def G : ℝ := 1600

/-- Bounciness, `RESTITUTION = 0.84` (line 26). -/
def RESTITUTION : ℝ := 0.84

/-- Ground friction (tangential damping), `FRICTION = 0.008` (line 27). -/
def FRICTION : ℝ := 0.008

/-- Light air resistance, `AIR_DRAG = 0.0008` (line 28). -/
def AIR_DRAG : ℝ := 0.0008

/-- Frame-jump cap, `MAX_DT = 1/60` (line 29). -/
def MAX_DT : ℝ := 1 / 60

/-- Substep count, `SUBSTEPS = 1` (line 30). -/
def SUBSTEPS : ℕ := 1

/-- Ball-vs-ball tangential friction coefficient, `mu = 0.02` (line 133). -/
def mu : ℝ := 0.02

/-- Population cap, `MAX_BALLS = 4` (line 166). -/
def MAX_BALLS : ℕ := 4

/-- A circle body: `class Ball` (lines 65–84). -/
@[ext] structure Ball where
  px : ℝ
  py : ℝ
  vx : ℝ
  vy : ℝ
  r  : ℝ
  m  : ℝ

/-- The `Ball` constructor (lines 66–73): zero velocity, area-based mass. -/
def Ball.new (x y r : ℝ) : Ball :=
  { px := x, py := y, vx := 0, vy := 0, r := r, m := Real.pi * r * r }

/-- `Ball.integrate(dt)` (lines 74–80): gravity, then exponential drag on
both components, then position update with the post-drag velocities. -/
def integrate (b : Ball) (dt : ℝ) : Ball :=
  let vy1 := b.vy + G * dt
  let drag := Real.exp (-AIR_DRAG * dt * 1000)
  let vx2 := b.vx * drag
  let vy2 := vy1 * drag
  { b with px := b.px + vx2 * dt, py := b.py + vy2 * dt, vx := vx2, vy := vy2 }

/-- Left-wall check of `collideWalls` (line 90). -/
def wallLeft (b : Ball) : Ball :=
  if b.px - b.r < 0 then { b with px := b.r, vx := -b.vx * RESTITUTION } else b

/-- Right-wall check of `collideWalls` (line 91). -/
def wallRight (w : ℝ) (b : Ball) : Ball :=
  if b.px + b.r > w then { b with px := w - b.r, vx := -b.vx * RESTITUTION } else b

/-- Top-wall check of `collideWalls` (line 92). -/
def wallTop (b : Ball) : Ball :=
  if b.py - b.r < 0 then { b with py := b.r, vy := -b.vy * RESTITUTION } else b

/-- Bottom-wall check of `collideWalls` (lines 93–101): clamp and bounce,
then the `onGround` test on the updated fields, tangential damping and the
anti-jitter stop. -/
def wallBottom (h : ℝ) (b : Ball) : Ball :=
  if b.py + b.r > h then
    let b1 := { b with py := h - b.r, vy := -b.vy * RESTITUTION }
    if |b1.py + b1.r - h| < 0.5 ∧ |b1.vy| < 50 then
      let vx1 := b1.vx * (1 - FRICTION)
      { b1 with vx := if |vx1| < 2 then 0 else vx1 }
    else b1
  else b

/-- `collideWalls` (lines 89–102): the four checks run in order, each seeing
the state left by the previous one. -/
def collideWalls (w h : ℝ) (b : Ball) : Ball :=
  wallBottom h (wallTop (wallRight w (wallLeft b)))

/-- Squared center distance `dx*dx + dy*dy` (lines 106–107). -/
def dist2 (a b : Ball) : ℝ :=
  (b.px - a.px) * (b.px - a.px) + (b.py - a.py) * (b.py - a.py)

/-- Positional correction block of `collideBalls` (lines 117–118): move the
two centers apart along the normal; only positions are touched. -/
def depenetrate (a b : Ball) (nx ny corrA corrB : ℝ) : Ball × Ball :=
  ({ a with px := a.px - nx * corrA, py := a.py - ny * corrA },
   { b with px := b.px + nx * corrB, py := b.py + ny * corrB })

/-- Velocity update block of `collideBalls` (lines 126–136): the normal
impulse `j` and the clamped tangential impulse `jtC` applied with
equal-and-opposite signs (`tx = -ny`, `ty = nx`). -/
def applyImpulse (a b : Ball) (j jtC nx ny : ℝ) : Ball × Ball :=
  ({ a with vx := a.vx - (j * nx) / a.m - (jtC * (-ny)) / a.m,
            vy := a.vy - (j * ny) / a.m - (jtC * nx) / a.m },
   { b with vx := b.vx + (j * nx) / b.m + (jtC * (-ny)) / b.m,
            vy := b.vy + (j * ny) / b.m + (jtC * nx) / b.m })

/-- Body of `collideBalls` after the early exit (lines 110–136), with the
normal `(nx, ny)` and the distance already computed. -/
def collideCore (a b : Ball) (nx ny dist : ℝ) : Ball × Ball :=
  let penetration := (a.r + b.r) - dist
  let totalMass := a.m + b.m
  let p := depenetrate a b nx ny (penetration * (b.m / totalMass))
      (penetration * (a.m / totalMass))
  let rvx := b.vx - a.vx
  let rvy := b.vy - a.vy
  let velAlongNormal := rvx * nx + rvy * ny
  if velAlongNormal > 0 then p
  else
    let j := -(1 + RESTITUTION) * velAlongNormal / (1 / a.m + 1 / b.m)
    let vTan := rvx * (-ny) + rvy * nx
    let jt := -vTan / (1 / a.m + 1 / b.m)
    let jtClamped := min (mu * |j|) (max (-(mu * |j|)) jt)
    applyImpulse p.1 p.2 j jtClamped nx ny

/-- `collideBalls(a, b)` (lines 105–137): early exit on coincident centers or
no overlap, otherwise normalize (with the `dist ? dx/dist : 1` guard) and run
the resolution core. -/
def collideBalls (a b : Ball) : Ball × Ball :=
  if dist2 a b = 0 ∨ dist2 a b > (a.r + b.r) * (a.r + b.r) then (a, b)
  else
    let dist := Real.sqrt (dist2 a b)
    collideCore a b (if dist = 0 then 1 else (b.px - a.px) / dist)
      (if dist = 0 then 0 else (b.py - a.py) / dist) dist

/-- Inner `j` loop of `step` (lines 146–148): collide the mutable ball at
index `i` with every later ball in turn, threading its updates. -/
def collideSeq (b : Ball) : List Ball → Ball × List Ball
  | [] => (b, [])
  | c :: cs =>
      let p := collideBalls b c
      let q := collideSeq p.1 cs
      (q.1, p.2 :: q.2)

lemma collideSeq_length (b : Ball) (l : List Ball) :
    (collideSeq b l).2.length = l.length := by
  induction l generalizing b with
  | nil => simp [collideSeq]
  | cons c cs ih => simp [collideSeq, ih]

/-- Outer `i` loop of `step` (lines 145–149): every unordered pair `(i, j)`
with `i < j` is resolved exactly once, in ascending index order. -/
def pairPass : List Ball → List Ball
  | [] => []
  | b :: bs =>
      let q := collideSeq b bs
      q.1 :: pairPass q.2
termination_by l => l.length
decreasing_by
  simp [collideSeq_length]

/-- One substep of `step` (lines 142–149): integrate every ball, resolve the
walls for every ball, then the pairwise pass. -/
def substep (w h sdt : ℝ) (bs : List Ball) : List Ball :=
  pairPass (((bs.map (fun b => integrate b sdt)).map (collideWalls w h)))

/-- `step(dt)` (lines 140–151): clamp `dt` to `MAX_DT`, divide by the substep
count, and run the substeps. -/
def step (w h dt : ℝ) (bs : List Ball) : List Ball :=
  (substep w h (min MAX_DT dt / (SUBSTEPS : ℝ)))^[SUBSTEPS] bs

/-- Iterated world steps with a fixed frame delta. -/
def stepIter (w h dt : ℝ) (n : ℕ) (bs : List Ball) : List Ball :=
  (step w h dt)^[n] bs

/-- Population push with oldest-first eviction, shared by `spawnRandomBall`
(lines 177–178) and the pointer-up handler (lines 236–237): append, then
`shift()` the index-0 element when the cap is exceeded. -/
def spawnPush {α : Type} (l : List α) (b : α) : List α :=
  let pushed := l ++ [b]
  if MAX_BALLS < pushed.length then pushed.tail else pushed

/-- Run a whole sequence of spawn operations against an initially empty
population. -/
def spawnAll {α : Type} (bs : List α) : List α :=
  bs.foldl spawnPush []

/-! ### Population lemmas -/

lemma spawnPush_length_le {α : Type} (l : List α) (b : α)
    (h : l.length ≤ MAX_BALLS) : (spawnPush l b).length ≤ MAX_BALLS := by
  unfold spawnPush
  by_cases hc : MAX_BALLS < (l ++ [b]).length
  · rw [if_pos hc]
    simp only [List.length_tail, List.length_append, List.length_singleton]
    omega
  · rw [if_neg hc]
    simp only [List.length_append, List.length_singleton] at hc ⊢
    omega

lemma foldl_spawnPush_length {α : Type} (bs l : List α)
    (h : l.length ≤ MAX_BALLS) :
    (bs.foldl spawnPush l).length ≤ MAX_BALLS := by
  induction bs generalizing l with
  | nil => simpa using h
  | cons b bs ih => exact ih _ (spawnPush_length_le l b h)

lemma isSuffix_append_right {α : Type} {l₁ l₂ : List α} (h : l₁.IsSuffix l₂)
    (t : List α) : (l₁ ++ t).IsSuffix (l₂ ++ t) := by
  obtain ⟨u, rfl⟩ := h
  exact ⟨u, (List.append_assoc u l₁ t).symm⟩

lemma spawnPush_isSuffix {α : Type} (l : List α) (b : α) :
    (spawnPush l b).IsSuffix (l ++ [b]) := by
  unfold spawnPush
  by_cases hc : MAX_BALLS < l.length + 1
  · simpa [hc] using List.tail_suffix (l ++ [b])
  · simp [hc]

lemma foldl_spawnPush_isSuffix {α : Type} (bs l : List α) :
    (bs.foldl spawnPush l).IsSuffix (l ++ bs) := by
  induction bs generalizing l with
  | nil => simp
  | cons b bs ih =>
      rw [List.foldl_cons]
      refine (ih (spawnPush l b)).trans ?_
      have h := isSuffix_append_right (spawnPush_isSuffix l b) bs
      simpa using h

/-- C1: any sequence of spawn operations keeps the population at or below
`MAX_BALLS`, the survivors are a suffix of the spawn sequence, and a spawn at
capacity evicts exactly the index-0 (oldest) body. -/
theorem population_bound {α : Type} (bs l : List α) (b : α)
    (hl : l.length = MAX_BALLS) :
    (spawnAll bs).length ≤ MAX_BALLS ∧ (spawnAll bs).IsSuffix bs
      ∧ spawnPush l b = l.tail ++ [b] := by
  refine ⟨foldl_spawnPush_length bs [] (by simp), ?_, ?_⟩
  · simpa using foldl_spawnPush_isSuffix bs []
  · have hne : l ≠ [] := by
      intro hnil
      rw [hnil] at hl
      simp [MAX_BALLS] at hl
    unfold spawnPush
    rw [if_pos (by simp [hl, MAX_BALLS]),
      List.tail_append_singleton_of_ne_nil hne]

/-- Witness for C1 at a concrete spawn sequence of five tagged bodies. -/
theorem population_bound_witness :
    (spawnAll [1, 2, 3, 4, 5]).length ≤ MAX_BALLS
      ∧ (spawnAll [1, 2, 3, 4, 5]).IsSuffix [1, 2, 3, 4, 5]
      ∧ spawnPush [1, 2, 3, 4] 5 = [2, 3, 4, 5] := by
  have h := population_bound [1, 2, 3, 4, 5] [1, 2, 3, 4] 5 (by decide)
  exact ⟨h.1, h.2.1, by rw [h.2.2]; simp⟩

/-! ### Integrator -/

/-- C2: `integrate` adds `G*dt` to `vy`, scales both velocity components by
`exp(-AIR_DRAG*dt*1000)`, advances the position with the post-drag
velocities, and leaves every other field unchanged. -/
theorem integrate_spec (b : Ball) (dt : ℝ) (hdt : 0 < dt) :
    integrate b dt =
      { px := b.px + (b.vx * Real.exp (-AIR_DRAG * dt * 1000)) * dt,
        py := b.py + ((b.vy + G * dt) * Real.exp (-AIR_DRAG * dt * 1000)) * dt,
        vx := b.vx * Real.exp (-AIR_DRAG * dt * 1000),
        vy := (b.vy + G * dt) * Real.exp (-AIR_DRAG * dt * 1000),
        r := b.r, m := b.m } := rfl

/-- Witness for C2 at `dt = 1`. -/
theorem integrate_spec_witness :
    integrate (Ball.new 0 0 1) 1 =
      { px := (Ball.new 0 0 1).px
          + ((Ball.new 0 0 1).vx * Real.exp (-AIR_DRAG * 1 * 1000)) * 1,
        py := (Ball.new 0 0 1).py
          + (((Ball.new 0 0 1).vy + G * 1) * Real.exp (-AIR_DRAG * 1 * 1000)) * 1,
        vx := (Ball.new 0 0 1).vx * Real.exp (-AIR_DRAG * 1 * 1000),
        vy := ((Ball.new 0 0 1).vy + G * 1) * Real.exp (-AIR_DRAG * 1 * 1000),
        r := (Ball.new 0 0 1).r, m := (Ball.new 0 0 1).m } :=
  integrate_spec (Ball.new 0 0 1) 1 (by norm_num)

/-! ### Wall resolution -/

lemma abs_neg_mul_rest (v : ℝ) : |-v * RESTITUTION| ≤ |v| := by
  rw [neg_mul, abs_neg, abs_mul, abs_of_nonneg (by norm_num [RESTITUTION] :
    (0:ℝ) ≤ RESTITUTION)]
  exact mul_le_of_le_one_right (abs_nonneg v) (by norm_num [RESTITUTION])

/-- C3: each firing wall check clamps the position on its axis to the
wall-tangent boundary and replaces the normal velocity component by its
negation scaled by `RESTITUTION`; the post-bounce speed along the bounce
axis never exceeds the pre-bounce speed. -/
theorem wall_bounce (w h : ℝ) (b : Ball) :
    (b.px - b.r < 0 →
        wallLeft b = { b with px := b.r, vx := -b.vx * RESTITUTION }
          ∧ |(wallLeft b).vx| ≤ |b.vx|)
    ∧ (b.px + b.r > w →
        wallRight w b = { b with px := w - b.r, vx := -b.vx * RESTITUTION }
          ∧ |(wallRight w b).vx| ≤ |b.vx|)
    ∧ (b.py - b.r < 0 →
        wallTop b = { b with py := b.r, vy := -b.vy * RESTITUTION }
          ∧ |(wallTop b).vy| ≤ |b.vy|)
    ∧ (b.py + b.r > h →
        (wallBottom h b).py = h - b.r
          ∧ (wallBottom h b).vy = -b.vy * RESTITUTION
          ∧ |(wallBottom h b).vy| ≤ |b.vy|) := by
  refine ⟨fun hg => ?_, fun hg => ?_, fun hg => ?_, fun hg => ?_⟩
  · unfold wallLeft
    rw [if_pos hg]
    exact ⟨rfl, abs_neg_mul_rest b.vx⟩
  · unfold wallRight
    rw [if_pos hg]
    exact ⟨rfl, abs_neg_mul_rest b.vx⟩
  · unfold wallTop
    rw [if_pos hg]
    exact ⟨rfl, abs_neg_mul_rest b.vy⟩
  · simp only [wallBottom, if_pos hg]
    split
    · exact ⟨rfl, rfl, abs_neg_mul_rest b.vy⟩
    · exact ⟨rfl, rfl, abs_neg_mul_rest b.vy⟩

/-- A body overlapping the left wall, used as the C3 witness input. -/
def leftBall : Ball := ⟨-10, 500, 3, 4, 50, 100⟩

/-- Witness for C3: the left-wall check fires on `leftBall`. -/
theorem wall_bounce_witness :
    wallLeft leftBall
        = { leftBall with px := leftBall.r, vx := -leftBall.vx * RESTITUTION }
      ∧ |(wallLeft leftBall).vx| ≤ |leftBall.vx| :=
  (wall_bounce 1000 1000 leftBall).1 (by norm_num [leftBall])

/-- C6: when the bottom-wall branch fires and the post-bounce vertical speed
is below the 50 units/s threshold, the ground-contact test succeeds (the
clamped body is exactly on the floor), `vx` is damped by `1 - FRICTION`, and
it is zeroed exactly when the damped value is below the 2 units/s stop
threshold. -/
theorem ground_friction (h : ℝ) (b : Ball)
    (hg : b.py + b.r > h) (hv : |-b.vy * RESTITUTION| < 50) :
    wallBottom h b =
      { b with py := h - b.r, vy := -b.vy * RESTITUTION,
               vx := if |b.vx * (1 - FRICTION)| < 2 then 0
                     else b.vx * (1 - FRICTION) } := by
  simp only [wallBottom, if_pos hg]
  rw [if_pos ⟨by rw [show h - b.r + b.r - h = 0 by ring]; norm_num, hv⟩]

/-- A slow body below the floor line, used as the C6 witness input. -/
def floorBall : Ball := ⟨0, 60, 1, 10, 50, 100⟩

/-- Witness for C6: on `floorBall` with a 100-high arena the friction branch
fires and the damped `vx` is stopped to exactly `0`. -/
theorem ground_friction_witness :
    wallBottom 100 floorBall =
      { floorBall with py := 100 - floorBall.r,
                       vy := -floorBall.vy * RESTITUTION,
                       vx := if |floorBall.vx * (1 - FRICTION)| < 2 then 0
                             else floorBall.vx * (1 - FRICTION) } :=
  ground_friction 100 floorBall (by norm_num [floorBall])
    (by norm_num [floorBall, RESTITUTION, abs_lt])

/-! ### Pairwise collision: early exit -/

lemma dist2_nonneg (a b : Ball) : 0 ≤ dist2 a b :=
  add_nonneg (mul_self_nonneg _) (mul_self_nonneg _)

lemma collideBalls_exit (a b : Ball)
    (h : dist2 a b = 0 ∨ dist2 a b > (a.r + b.r) * (a.r + b.r)) :
    collideBalls a b = (a, b) := by
  unfold collideBalls
  rw [if_pos h]

/-- C5: coincident centers or no overlap leave both bodies unchanged. -/
theorem resolvePair_skip (a b : Ball)
    (h : dist2 a b = 0 ∨ dist2 a b > (a.r + b.r) * (a.r + b.r)) :
    collideBalls a b = (a, b) :=
  collideBalls_exit a b h

/-- Witness for C5: two coincident bodies are returned untouched. -/
theorem resolvePair_skip_witness :
    collideBalls (Ball.new 1 2 3) (Ball.new 1 2 3)
      = (Ball.new 1 2 3, Ball.new 1 2 3) :=
  resolvePair_skip _ _ (Or.inl (by norm_num [dist2, Ball.new]))

/-! ### Pairwise collision: overlap branch -/

lemma collideBalls_eq_core (a b : Ball) (h0 : dist2 a b ≠ 0)
    (h1 : ¬ dist2 a b > (a.r + b.r) * (a.r + b.r)) :
    collideBalls a b
      = collideCore a b ((b.px - a.px) / Real.sqrt (dist2 a b))
          ((b.py - a.py) / Real.sqrt (dist2 a b)) (Real.sqrt (dist2 a b)) := by
  have hpos : 0 < dist2 a b := lt_of_le_of_ne (dist2_nonneg a b) (Ne.symm h0)
  have hs : Real.sqrt (dist2 a b) ≠ 0 := ne_of_gt (Real.sqrt_pos.mpr hpos)
  have hcond : ¬ (dist2 a b = 0 ∨ dist2 a b > (a.r + b.r) * (a.r + b.r)) := by
    push_neg
    exact ⟨h0, le_of_not_lt h1⟩
  simp only [collideBalls, if_neg hcond, if_neg hs]

lemma depenetrate_swap (a b : Ball) (nx ny cA cB : ℝ) :
    depenetrate b a (-nx) (-ny) cB cA
      = ((depenetrate a b nx ny cA cB).2, (depenetrate a b nx ny cA cB).1) := by
  simp only [depenetrate, Prod.mk.injEq]
  constructor <;> (ext <;> dsimp only <;> ring)

lemma applyImpulse_swap (a b : Ball) (j jtC nx ny : ℝ) :
    applyImpulse b a j jtC (-nx) (-ny)
      = ((applyImpulse a b j jtC nx ny).2, (applyImpulse a b j jtC nx ny).1) := by
  simp only [applyImpulse, Prod.mk.injEq]
  constructor <;> (ext <;> dsimp only <;> ring)

lemma collideCore_swap (a b : Ball) (nx ny dist : ℝ) :
    collideCore b a (-nx) (-ny) dist
      = ((collideCore a b nx ny dist).2, (collideCore a b nx ny dist).1) := by
  simp only [collideCore]
  rw [show (a.vx - b.vx) * -nx + (a.vy - b.vy) * -ny
      = (b.vx - a.vx) * nx + (b.vy - a.vy) * ny from by ring]
  rw [show (b.r + a.r - dist) * (a.m / (b.m + a.m))
      = (a.r + b.r - dist) * (a.m / (a.m + b.m)) from by ring]
  rw [show (b.r + a.r - dist) * (b.m / (b.m + a.m))
      = (a.r + b.r - dist) * (b.m / (a.m + b.m)) from by ring]
  rw [show (1 : ℝ) / b.m + 1 / a.m = 1 / a.m + 1 / b.m from add_comm _ _]
  rw [show (a.vx - b.vx) * -(-ny) + (a.vy - b.vy) * -nx
      = (b.vx - a.vx) * -ny + (b.vy - a.vy) * nx from by ring]
  rw [depenetrate_swap a b nx ny]
  split_ifs with hc
  · rfl
  · exact applyImpulse_swap _ _ _ _ _ _

/-- C7: `collideBalls` is order-insensitive: swapping the arguments swaps
the two result bodies and nothing else. -/
theorem resolvePair_symm (a b : Ball) :
    collideBalls b a = ((collideBalls a b).2, (collideBalls a b).1) := by
  have hd : dist2 b a = dist2 a b := by unfold dist2; ring
  have hr : (b.r + a.r) * (b.r + a.r) = (a.r + b.r) * (a.r + b.r) := by ring
  by_cases hc : dist2 a b = 0 ∨ dist2 a b > (a.r + b.r) * (a.r + b.r)
  · have hc' : dist2 b a = 0 ∨ dist2 b a > (b.r + a.r) * (b.r + a.r) := by
      rw [hd, hr]
      exact hc
    rw [collideBalls_exit a b hc, collideBalls_exit b a hc']
  · push_neg at hc
    obtain ⟨h0, h1⟩ := hc
    have h0' : dist2 b a ≠ 0 := by rw [hd]; exact h0
    have h1' : ¬ dist2 b a > (b.r + a.r) * (b.r + a.r) := by
      rw [hd, hr]
      exact not_lt.mpr h1
    rw [collideBalls_eq_core a b h0 (not_lt.mpr h1),
      collideBalls_eq_core b a h0' h1', hd]
    rw [show (a.px - b.px) / Real.sqrt (dist2 a b)
        = -((b.px - a.px) / Real.sqrt (dist2 a b)) from by ring]
    rw [show (a.py - b.py) / Real.sqrt (dist2 a b)
        = -((b.py - a.py) / Real.sqrt (dist2 a b)) from by ring]
    exact collideCore_swap a b _ _ _

/-- C4: in the overlap case the positional correction moves `a` against the
normal by `penetration * m_b / (m_a + m_b)` and `b` along the normal by
`penetration * m_a / (m_a + m_b)`, and the depenetration block touches no
velocity. -/
theorem depenetration_spec (a b : Ball)
    (h0 : dist2 a b ≠ 0) (h1 : dist2 a b ≤ (a.r + b.r) * (a.r + b.r)) :
    ((collideBalls a b).1.px
        = a.px - (b.px - a.px) / Real.sqrt (dist2 a b)
            * ((a.r + b.r - Real.sqrt (dist2 a b)) * (b.m / (a.m + b.m)))
      ∧ (collideBalls a b).1.py
        = a.py - (b.py - a.py) / Real.sqrt (dist2 a b)
            * ((a.r + b.r - Real.sqrt (dist2 a b)) * (b.m / (a.m + b.m)))
      ∧ (collideBalls a b).2.px
        = b.px + (b.px - a.px) / Real.sqrt (dist2 a b)
            * ((a.r + b.r - Real.sqrt (dist2 a b)) * (a.m / (a.m + b.m)))
      ∧ (collideBalls a b).2.py
        = b.py + (b.py - a.py) / Real.sqrt (dist2 a b)
            * ((a.r + b.r - Real.sqrt (dist2 a b)) * (a.m / (a.m + b.m))))
    ∧ ∀ (p q : Ball) (nx ny cA cB : ℝ),
        (depenetrate p q nx ny cA cB).1.vx = p.vx
          ∧ (depenetrate p q nx ny cA cB).1.vy = p.vy
          ∧ (depenetrate p q nx ny cA cB).2.vx = q.vx
          ∧ (depenetrate p q nx ny cA cB).2.vy = q.vy := by
  refine ⟨?_, fun p q nx ny cA cB => ⟨rfl, rfl, rfl, rfl⟩⟩
  rw [collideBalls_eq_core a b h0 (not_lt.mpr h1)]
  simp only [collideCore]
  split_ifs with hc
  · exact ⟨rfl, rfl, rfl, rfl⟩
  · exact ⟨rfl, rfl, rfl, rfl⟩

/-- A stationary body at the origin, C4 witness input. -/
def ballC : Ball := Ball.new 0 0 50

/-- A stationary body 90 units to the right, C4 witness input. -/
def ballD : Ball := Ball.new 90 0 50

/-- Witness for C4: `ballC` and `ballD` overlap (distance 90 < 100). -/
theorem depenetration_spec_witness :
    (collideBalls ballC ballD).1.px
      = ballC.px - (ballD.px - ballC.px) / Real.sqrt (dist2 ballC ballD)
          * ((ballC.r + ballD.r - Real.sqrt (dist2 ballC ballD))
              * (ballD.m / (ballC.m + ballD.m))) :=
  (depenetration_spec ballC ballD
    (by norm_num [dist2, ballC, ballD, Ball.new])
    (by norm_num [dist2, ballC, ballD, Ball.new])).1.1

/-! ### Mass and radius are never written -/

/-- The `(radius, mass)` view of a body. -/
def rm (b : Ball) : ℝ × ℝ := (b.r, b.m)

lemma wallLeft_rm (b : Ball) : rm (wallLeft b) = rm b := by
  unfold wallLeft
  split_ifs <;> rfl

lemma wallRight_rm (w : ℝ) (b : Ball) : rm (wallRight w b) = rm b := by
  unfold wallRight
  split_ifs <;> rfl

lemma wallTop_rm (b : Ball) : rm (wallTop b) = rm b := by
  unfold wallTop
  split_ifs <;> rfl

lemma wallBottom_rm (h : ℝ) (b : Ball) : rm (wallBottom h b) = rm b := by
  simp only [wallBottom]
  split_ifs <;> rfl

lemma collideWalls_rm (w h : ℝ) (b : Ball) : rm (collideWalls w h b) = rm b := by
  unfold collideWalls
  rw [wallBottom_rm, wallTop_rm, wallRight_rm, wallLeft_rm]

lemma collideBalls_rm (a b : Ball) :
    rm (collideBalls a b).1 = rm a ∧ rm (collideBalls a b).2 = rm b := by
  simp only [collideBalls, collideCore, depenetrate, applyImpulse]
  split_ifs <;> exact ⟨rfl, rfl⟩

lemma collideSeq_rm (b : Ball) (l : List Ball) :
    rm (collideSeq b l).1 = rm b ∧ (collideSeq b l).2.map rm = l.map rm := by
  induction l generalizing b with
  | nil => exact ⟨rfl, rfl⟩
  | cons c cs ih =>
      simp only [collideSeq, List.map_cons]
      have hc := collideBalls_rm b c
      have hi := ih (collideBalls b c).1
      exact ⟨hi.1.trans hc.1, by rw [hc.2, hi.2]⟩

lemma pairPass_rm_aux (n : ℕ) :
    ∀ l : List Ball, l.length ≤ n → (pairPass l).map rm = l.map rm := by
  induction n with
  | zero =>
      intro l hl
      have : l = [] := List.eq_nil_of_length_eq_zero (Nat.le_zero.mp hl)
      subst this
      simp [pairPass]
  | succ n ih =>
      intro l hl
      cases l with
      | nil => simp [pairPass]
      | cons b bs =>
          simp only [pairPass, List.map_cons]
          have hseq := collideSeq_rm b bs
          have hlen : (collideSeq b bs).2.length ≤ n := by
            rw [collideSeq_length]
            simpa using Nat.succ_le_succ_iff.mp hl
          rw [ih _ hlen, hseq.1, hseq.2]

lemma pairPass_rm (l : List Ball) : (pairPass l).map rm = l.map rm :=
  pairPass_rm_aux l.length l le_rfl

lemma substep_rm (w h sdt : ℝ) (bs : List Ball) :
    (substep w h sdt bs).map rm = bs.map rm := by
  unfold substep
  rw [pairPass_rm, List.map_map, List.map_map]
  refine List.map_congr_left fun b _ => ?_
  show rm (collideWalls w h (integrate b sdt)) = rm b
  rw [collideWalls_rm]
  rfl

lemma step_rm (w h dt : ℝ) (bs : List Ball) :
    (step w h dt bs).map rm = bs.map rm := by
  simp only [step, SUBSTEPS, Function.iterate_one]
  exact substep_rm _ _ _ _

/-- C10: mass is set to `π·r²` at creation and neither the mass nor the
radius field is ever changed by `integrate`, the wall resolver, the pair
resolver, or `step`. -/
theorem mass_radius_immutable :
    (∀ x y r : ℝ, (Ball.new x y r).m = Real.pi * r ^ 2)
    ∧ (∀ (b : Ball) (dt : ℝ),
        (integrate b dt).r = b.r ∧ (integrate b dt).m = b.m)
    ∧ (∀ (w h : ℝ) (b : Ball),
        (collideWalls w h b).r = b.r ∧ (collideWalls w h b).m = b.m)
    ∧ (∀ a b : Ball,
        (collideBalls a b).1.r = a.r ∧ (collideBalls a b).1.m = a.m
          ∧ (collideBalls a b).2.r = b.r ∧ (collideBalls a b).2.m = b.m)
    ∧ (∀ (w h dt : ℝ) (bs : List Ball),
        (step w h dt bs).map rm = bs.map rm) := by
  refine ⟨fun x y r => by simp [Ball.new]; ring, fun b dt => ⟨rfl, rfl⟩,
    fun w h b => ?_, fun a b => ?_, fun w h dt bs => step_rm w h dt bs⟩
  · have hc := collideWalls_rm w h b
    exact ⟨congrArg Prod.fst hc, congrArg Prod.snd hc⟩
  · have hc := collideBalls_rm a b
    exact ⟨congrArg Prod.fst hc.1, congrArg Prod.snd hc.1,
      congrArg Prod.fst hc.2, congrArg Prod.snd hc.2⟩

/-! ### The head-on scenario (C8) -/

/-- Scenario body `a`: radius 50 at the origin moving right at 100. -/
def ballA : Ball := { Ball.new 0 0 50 with vx := 100 }

/-- Scenario body `b`: radius 50 at rest, 90 units to the right. -/
def ballB : Ball := Ball.new 90 0 50

/-- Scenario outcome for `a`. -/
def ballA' : Ball :=
  { px := -5, py := 0, vx := 8, vy := 0, r := 50, m := Real.pi * 50 * 50 }

/-- Scenario outcome for `b`. -/
def ballB' : Ball :=
  { px := 95, py := 0, vx := 92, vy := 0, r := 50, m := Real.pi * 50 * 50 }

lemma jtClamped_of_zero (j : ℝ) : min (mu * |j|) (max (-(mu * |j|)) 0) = 0 := by
  have hc : (0:ℝ) ≤ mu * |j| := mul_nonneg (by norm_num [mu]) (abs_nonneg j)
  rw [max_eq_right (neg_nonpos.mpr hc), min_eq_right hc]

lemma scenario_eval : collideBalls ballA ballB = (ballA', ballB') := by
  have hd2 : dist2 ballA ballB = 8100 := by
    norm_num [dist2, ballA, ballB, Ball.new]
  have hsq : Real.sqrt (dist2 ballA ballB) = 90 := by
    rw [hd2, show (8100:ℝ) = 90 ^ 2 by norm_num,
      Real.sqrt_sq (by norm_num : (0:ℝ) ≤ 90)]
  rw [collideBalls_eq_core ballA ballB (by rw [hd2]; norm_num)
    (by rw [hd2]; norm_num [ballA, ballB, Ball.new]), hsq]
  rw [show (ballB.px - ballA.px) / 90 = (1:ℝ) from by
      norm_num [ballA, ballB, Ball.new]]
  rw [show (ballB.py - ballA.py) / 90 = (0:ℝ) from by
      norm_num [ballA, ballB, Ball.new]]
  simp only [collideCore, depenetrate, applyImpulse, ballA, ballB, Ball.new]
  rw [if_neg (by norm_num)]
  norm_num [RESTITUTION, jtClamped_of_zero, ballA', ballB', Prod.mk.injEq]
  have hpi : Real.pi ≠ 0 := Real.pi_ne_zero
  refine ⟨⟨?_, ?_⟩, ?_, ?_⟩ <;> field_simp <;> ring

/-! ### C8: head-on scenario properties -/

/-- C8: after one resolution of the 90-units-apart head-on pair, the center
distance has not decreased, the pair is no longer approaching along the
collision normal `(1, 0)`, and the separating speed along the normal is
exactly `84 = RESTITUTION * 100`. -/
theorem scenario_spec :
    Real.sqrt (dist2 (collideBalls ballA ballB).1 (collideBalls ballA ballB).2)
        ≥ Real.sqrt (dist2 ballA ballB)
      ∧ ((collideBalls ballA ballB).2.vx - (collideBalls ballA ballB).1.vx) * 1
          + ((collideBalls ballA ballB).2.vy - (collideBalls ballA ballB).1.vy)
              * 0 ≥ 0
      ∧ ((collideBalls ballA ballB).2.vx - (collideBalls ballA ballB).1.vx) * 1
          + ((collideBalls ballA ballB).2.vy - (collideBalls ballA ballB).1.vy)
              * 0 = 84 := by
  have hd2 : dist2 ballA ballB = 8100 := by
    norm_num [dist2, ballA, ballB, Ball.new]
  have hd2' : dist2 ballA' ballB' = 10000 := by
    norm_num [dist2, ballA', ballB']
  rw [scenario_eval]
  refine ⟨?_, ?_, ?_⟩
  · show Real.sqrt (dist2 ballA' ballB') ≥ Real.sqrt (dist2 ballA ballB)
    rw [hd2, hd2']
    exact Real.sqrt_le_sqrt (by norm_num)
  · norm_num [ballA', ballB']
  · norm_num [ballA', ballB']

/-! ### C9: a body resting on the floor -/

lemma wallLeft_id (b : Ball) (h : ¬ b.px - b.r < 0) : wallLeft b = b := by
  unfold wallLeft
  rw [if_neg h]

lemma wallRight_id (w : ℝ) (b : Ball) (h : ¬ b.px + b.r > w) :
    wallRight w b = b := by
  unfold wallRight
  rw [if_neg h]

lemma wallTop_id (b : Ball) (h : ¬ b.py - b.r < 0) : wallTop b = b := by
  unfold wallTop
  rw [if_neg h]

lemma wallBottom_fire (h : ℝ) (b : Ball) (hg : b.py + b.r > h)
    (hv : |-b.vy * RESTITUTION| < 50) (hstop : |b.vx * (1 - FRICTION)| < 2) :
    wallBottom h b = { b with py := h - b.r, vy := -b.vy * RESTITUTION,
                              vx := 0 } := by
  simp only [wallBottom, if_pos hg]
  rw [if_pos ⟨by rw [show h - b.r + b.r - h = 0 by ring]; norm_num, hv⟩,
    if_pos hstop]

lemma integrate_floor (s v m : ℝ) :
    integrate ⟨500, 950, 0, v, 50, m⟩ s
      = ⟨500, 950 + (v + 1600 * s) * Real.exp (-AIR_DRAG * s * 1000) * s, 0,
          (v + 1600 * s) * Real.exp (-AIR_DRAG * s * 1000), 50, m⟩ := by
  simp only [integrate, G]
  ext <;> dsimp only <;> ring

lemma collideWalls_floor (s v m : ℝ) (hs0 : 0 < s) (hs1 : s ≤ 1 / 60)
    (hv0 : v ≤ 0) (hv1 : -1600 * s < v) :
    collideWalls 1000 1000
        ⟨500, 950 + (v + 1600 * s) * Real.exp (-AIR_DRAG * s * 1000) * s, 0,
          (v + 1600 * s) * Real.exp (-AIR_DRAG * s * 1000), 50, m⟩
      = ⟨500, 950, 0,
          -((v + 1600 * s) * Real.exp (-AIR_DRAG * s * 1000)) * RESTITUTION,
          50, m⟩ := by
  have hE0 : 0 < Real.exp (-AIR_DRAG * s * 1000) := Real.exp_pos _
  have hE1 : Real.exp (-AIR_DRAG * s * 1000) < 1 := by
    rw [← Real.exp_zero]
    refine Real.exp_lt_exp.mpr ?_
    have hAD : (0 : ℝ) < AIR_DRAG := by norm_num [AIR_DRAG]
    nlinarith [mul_pos (mul_pos hAD hs0) (show (0 : ℝ) < 1000 by norm_num)]
  have hsum : 0 < v + 1600 * s := by linarith
  have hX : 0 < (v + 1600 * s) * Real.exp (-AIR_DRAG * s * 1000) * s :=
    mul_pos (mul_pos hsum hE0) hs0
  have hu : (v + 1600 * s) * Real.exp (-AIR_DRAG * s * 1000) < 1600 * s := by
    nlinarith [mul_pos hsum (sub_pos.mpr hE1)]
  have hupos : 0 < (v + 1600 * s) * Real.exp (-AIR_DRAG * s * 1000) :=
    mul_pos hsum hE0
  unfold collideWalls
  rw [wallLeft_id _ (by dsimp only; norm_num),
    wallRight_id _ _ (by dsimp only; norm_num),
    wallTop_id _ (by dsimp only; push_neg; nlinarith),
    wallBottom_fire _ _ (by dsimp only; nlinarith)
      (by
        dsimp only
        rw [abs_lt, show RESTITUTION = 21 / 25 from by norm_num [RESTITUTION]]
        constructor
        · linarith
        · linarith)
      (by dsimp only; norm_num [FRICTION])]
  ext <;> dsimp only <;> norm_num

lemma substep_floor (s v m : ℝ) (hs0 : 0 < s) (hs1 : s ≤ 1 / 60)
    (hv0 : v ≤ 0) (hv1 : -1600 * s < v) :
    substep 1000 1000 s [⟨500, 950, 0, v, 50, m⟩]
      = [⟨500, 950, 0,
          -((v + 1600 * s) * Real.exp (-AIR_DRAG * s * 1000)) * RESTITUTION,
          50, m⟩] := by
  unfold substep
  simp only [List.map_cons, List.map_nil]
  rw [integrate_floor, collideWalls_floor s v m hs0 hs1 hv0 hv1]
  simp [pairPass, collideSeq]

lemma step_floor (dt v m : ℝ) (hdt : 0 < dt) (hv0 : v ≤ 0)
    (hv1 : -1600 * min MAX_DT dt < v) :
    step 1000 1000 dt [⟨500, 950, 0, v, 50, m⟩]
      = [⟨500, 950, 0,
          -((v + 1600 * min MAX_DT dt)
              * Real.exp (-AIR_DRAG * min MAX_DT dt * 1000)) * RESTITUTION,
          50, m⟩] := by
  have hs0 : 0 < min MAX_DT dt := lt_min (by norm_num [MAX_DT]) hdt
  have hs1 : min MAX_DT dt ≤ 1 / 60 := by
    simpa [MAX_DT] using min_le_left MAX_DT dt
  simp only [step, SUBSTEPS, Function.iterate_one, Nat.cast_one, div_one]
  exact substep_floor (min MAX_DT dt) v m hs0 hs1 hv0 hv1

/-- The claim's initial state: a motionless body resting exactly on the
floor of a 1000×1000 arena. -/
def restBall : Ball := Ball.new 500 950 50

/-- The state of `restBall` after one `step(1/60)`: gravity re-excites the
vertical velocity and the bottom bounce flips it, so `vy < 0`. -/
def bounceBall : Ball :=
  ⟨500, 950, 0, -(80 / 3 * Real.exp (-(1 : ℝ) / 75)) * RESTITUTION, 50,
    Real.pi * 50 * 50⟩

lemma step_restBall : step 1000 1000 (1 / 60) [restBall] = [bounceBall] := by
  have hmin : min MAX_DT (1 / 60 : ℝ) = 1 / 60 := by norm_num [MAX_DT]
  have h := step_floor (1 / 60) 0 (Real.pi * 50 * 50) (by norm_num) le_rfl
    (by rw [hmin]; norm_num)
  rw [hmin] at h
  rw [show restBall = ⟨500, 950, 0, 0, 50, Real.pi * 50 * 50⟩ from rfl, h]
  rw [show (-AIR_DRAG * (1 / 60 : ℝ) * 1000) = -(1 : ℝ) / 75 from by
    norm_num [AIR_DRAG]]
  simp only [bounceBall, List.cons.injEq, and_true]
  ext <;> dsimp only <;> norm_num

lemma stepIter_succ (w h dt : ℝ) (n : ℕ) (bs : List Ball) :
    stepIter w h dt (n + 1) bs = step w h dt (stepIter w h dt n bs) := by
  simp only [stepIter, Function.iterate_succ_apply']

lemma stepIter_floor (dt : ℝ) (hdt : 0 < dt) (n : ℕ) :
    ∃ v, v ≤ 0 ∧ -1600 * min MAX_DT dt < v
      ∧ stepIter 1000 1000 dt n [restBall]
          = [⟨500, 950, 0, v, 50, Real.pi * 50 * 50⟩] := by
  have hs0 : 0 < min MAX_DT dt := lt_min (by norm_num [MAX_DT]) hdt
  induction n with
  | zero =>
      exact ⟨0, le_rfl, by nlinarith, rfl⟩
  | succ n ih =>
      obtain ⟨v, hv0, hv1, heq⟩ := ih
      have hE0 : 0 < Real.exp (-AIR_DRAG * min MAX_DT dt * 1000) :=
        Real.exp_pos _
      have hE1 : Real.exp (-AIR_DRAG * min MAX_DT dt * 1000) < 1 := by
        rw [← Real.exp_zero]
        refine Real.exp_lt_exp.mpr ?_
        have hAD : (0 : ℝ) < AIR_DRAG := by norm_num [AIR_DRAG]
        nlinarith [mul_pos (mul_pos hAD hs0) (show (0 : ℝ) < 1000 by norm_num)]
      have hsum : 0 < v + 1600 * min MAX_DT dt := by linarith
      have hupos : 0 < (v + 1600 * min MAX_DT dt)
          * Real.exp (-AIR_DRAG * min MAX_DT dt * 1000) := mul_pos hsum hE0
      have hu : (v + 1600 * min MAX_DT dt)
            * Real.exp (-AIR_DRAG * min MAX_DT dt * 1000)
          < 1600 * min MAX_DT dt := by
        nlinarith [mul_pos hsum (sub_pos.mpr hE1)]
      refine ⟨-((v + 1600 * min MAX_DT dt)
          * Real.exp (-AIR_DRAG * min MAX_DT dt * 1000)) * RESTITUTION,
        ?_, ?_, ?_⟩
      · rw [show RESTITUTION = 21 / 25 from by norm_num [RESTITUTION]]
        linarith
      · rw [show RESTITUTION = 21 / 25 from by norm_num [RESTITUTION]]
        linarith
      · rw [stepIter_succ, heq]
        exact step_floor dt v (Real.pi * 50 * 50) hdt hv0 hv1

/-- C9 is refuted: `restBall` satisfies every hypothesis of the claim (zero
velocity, resting exactly on the floor of the 1000×1000 arena, `dt > 0`),
yet already after one `step(1/60)` its vertical velocity is strictly
negative, not zero. -/
theorem floor_rest_counterexample :
    restBall.vx = 0 ∧ restBall.vy = 0 ∧ restBall.py = 1000 - restBall.r
      ∧ (0 : ℝ) < 1 / 60
      ∧ step 1000 1000 (1 / 60) [restBall] = [bounceBall]
      ∧ bounceBall.vy < 0 := by
  refine ⟨rfl, rfl, by norm_num [restBall, Ball.new], by norm_num,
    step_restBall, ?_⟩
  show -(80 / 3 * Real.exp (-(1 : ℝ) / 75)) * RESTITUTION < 0
  norm_num [RESTITUTION]
  positivity

/-! The universal form of the amended claim: any body `⟨px, h - r, 0, v, r, m⟩`
on the floor of any `w`×`h` arena.  When the ball fits the arena
(`2r ≤ h`) a band invariant `-1600·s < v ≤ 0` keeps it falling back onto
the floor each substep; when it does not (`h < 2r`) the top clamp leaves
`py = r` and the bottom check `r + r > h` then always restores
`py = h - r`, whatever the vertical speed. -/

lemma wallTop_fire (b : Ball) (hT : b.py - b.r < 0) :
    wallTop b = { b with py := b.r, vy := -b.vy * RESTITUTION } := by
  unfold wallTop
  rw [if_pos hT]

lemma wallBottom_rest (h : ℝ) (b : Ball) (hg : b.py + b.r > h)
    (hvx : b.vx = 0) :
    wallBottom h b
      = { b with py := h - b.r, vy := -b.vy * RESTITUTION, vx := 0 } := by
  simp only [wallBottom, if_pos hg]
  rw [hvx]
  split_ifs <;> (ext <;> dsimp only <;> norm_num [FRICTION])

lemma wallLR_rest (w px y vy r m : ℝ) :
    ∃ px2, wallRight w (wallLeft ⟨px, y, 0, vy, r, m⟩)
        = ⟨px2, y, 0, vy, r, m⟩ := by
  unfold wallLeft wallRight
  split_ifs
  · exact ⟨w - r, by ext <;> dsimp only <;> norm_num⟩
  · exact ⟨r, by ext <;> dsimp only <;> norm_num⟩
  · exact ⟨w - r, by ext <;> dsimp only <;> norm_num⟩
  · exact ⟨px, rfl⟩

lemma integrate_rest (px y v r m s : ℝ) :
    integrate ⟨px, y, 0, v, r, m⟩ s
      = ⟨px, y + (v + 1600 * s) * Real.exp (-AIR_DRAG * s * 1000) * s, 0,
          (v + 1600 * s) * Real.exp (-AIR_DRAG * s * 1000), r, m⟩ := by
  simp only [integrate, G]
  ext <;> dsimp only <;> ring

lemma substep_rest (w h s r m px v : ℝ) (hs0 : 0 < s) (hs1 : s ≤ 1 / 60)
    (hband : 2 * r ≤ h → -1600 * s < v ∧ v ≤ 0) :
    ∃ px2 v2,
      substep w h s [⟨px, h - r, 0, v, r, m⟩] = [⟨px2, h - r, 0, v2, r, m⟩]
        ∧ (2 * r ≤ h → -1600 * s < v2 ∧ v2 ≤ 0) := by
  have hE0 : 0 < Real.exp (-AIR_DRAG * s * 1000) := Real.exp_pos _
  have hE1 : Real.exp (-AIR_DRAG * s * 1000) < 1 := by
    rw [← Real.exp_zero]
    refine Real.exp_lt_exp.mpr ?_
    have hAD : (0 : ℝ) < AIR_DRAG := by norm_num [AIR_DRAG]
    nlinarith [mul_pos (mul_pos hAD hs0) (show (0 : ℝ) < 1000 by norm_num)]
  unfold substep
  simp only [List.map_cons, List.map_nil]
  rw [integrate_rest]
  unfold collideWalls
  obtain ⟨px2, hLR⟩ := wallLR_rest w px
    (h - r + (v + 1600 * s) * Real.exp (-AIR_DRAG * s * 1000) * s)
    ((v + 1600 * s) * Real.exp (-AIR_DRAG * s * 1000)) r m
  rw [hLR]
  by_cases hA : 2 * r ≤ h
  · obtain ⟨hb1, hb2⟩ := hband hA
    have hsum : 0 < v + 1600 * s := by linarith
    have hvy2pos : 0 < (v + 1600 * s) * Real.exp (-AIR_DRAG * s * 1000) :=
      mul_pos hsum hE0
    have hvy2lt : (v + 1600 * s) * Real.exp (-AIR_DRAG * s * 1000)
        < 1600 * s := by
      nlinarith [mul_pos hsum (sub_pos.mpr hE1)]
    rw [wallTop_id _ (by
        dsimp only
        push_neg
        nlinarith [mul_pos hvy2pos hs0])]
    rw [wallBottom_rest h _ (by
        dsimp only
        nlinarith [mul_pos hvy2pos hs0]) rfl]
    refine ⟨px2,
      -((v + 1600 * s) * Real.exp (-AIR_DRAG * s * 1000)) * RESTITUTION,
      ?_, fun _ => ?_⟩
    · simp only [pairPass, collideSeq]
    · rw [show RESTITUTION = 21 / 25 from by norm_num [RESTITUTION]]
      constructor
      · linarith
      · linarith
  · push_neg at hA
    by_cases hT : h - r + (v + 1600 * s) * Real.exp (-AIR_DRAG * s * 1000) * s
        - r < 0
    · rw [wallTop_fire _ hT]
      rw [wallBottom_rest h _ (by dsimp only; linarith) rfl]
      refine ⟨px2,
        -(-((v + 1600 * s) * Real.exp (-AIR_DRAG * s * 1000)) * RESTITUTION)
          * RESTITUTION,
        ?_, fun h2 => absurd h2 (not_le.mpr hA)⟩
      simp only [pairPass, collideSeq]
    · rw [wallTop_id _ hT]
      rw [wallBottom_rest h _ (by
          dsimp only
          push_neg at hT
          linarith) rfl]
      refine ⟨px2,
        -((v + 1600 * s) * Real.exp (-AIR_DRAG * s * 1000)) * RESTITUTION,
        ?_, fun h2 => absurd h2 (not_le.mpr hA)⟩
      simp only [pairPass, collideSeq]

lemma step_rest_band (w h dt r m px v : ℝ) (hdt : 0 < dt)
    (hband : 2 * r ≤ h → -1600 * min MAX_DT dt < v ∧ v ≤ 0) :
    ∃ px2 v2,
      step w h dt [⟨px, h - r, 0, v, r, m⟩] = [⟨px2, h - r, 0, v2, r, m⟩]
        ∧ (2 * r ≤ h → -1600 * min MAX_DT dt < v2 ∧ v2 ≤ 0) := by
  have hs0 : 0 < min MAX_DT dt := lt_min (by norm_num [MAX_DT]) hdt
  have hs1 : min MAX_DT dt ≤ 1 / 60 := by
    simpa [MAX_DT] using min_le_left MAX_DT dt
  simp only [step, SUBSTEPS, Function.iterate_one, Nat.cast_one, div_one]
  exact substep_rest w h (min MAX_DT dt) r m px v hs0 hs1 hband

lemma stepIter_rest_band (w h dt r m : ℝ) (hdt : 0 < dt) :
    ∀ (n : ℕ) (px v : ℝ),
      (2 * r ≤ h → -1600 * min MAX_DT dt < v ∧ v ≤ 0) →
        ∃ px2 v2,
          stepIter w h dt n [⟨px, h - r, 0, v, r, m⟩]
              = [⟨px2, h - r, 0, v2, r, m⟩]
            ∧ (2 * r ≤ h → -1600 * min MAX_DT dt < v2 ∧ v2 ≤ 0) := by
  intro n
  induction n with
  | zero => exact fun px v hband => ⟨px, v, rfl, hband⟩
  | succ n ih =>
      intro px v hband
      obtain ⟨px2, v2, heq, hband2⟩ := ih px v hband
      obtain ⟨px3, v3, hstep, hband3⟩ :=
        step_rest_band w h dt r m px2 v2 hdt hband2
      exact ⟨px3, v3, by rw [stepIter_succ, heq, hstep], hband3⟩

/-- C9 (amended): in any arena, a body with zero velocity resting exactly
on the floor (`py = height - r`), below the friction velocity threshold,
keeps zero horizontal velocity and stays resting exactly on the floor
(`py = height - r`) after any number of additional `step(dt)` calls, for
every `dt > 0`; its vertical velocity, however, is re-excited by gravity
each step and need not be zero. -/
theorem floor_rest_amended (w h dt : ℝ) (hdt : 0 < dt) (b : Ball)
    (hvx : b.vx = 0) (hvy : b.vy = 0) (hpy : b.py = h - b.r) (n : ℕ) :
    ∀ b2 ∈ stepIter w h dt n [b], b2.vx = 0 ∧ b2.py = h - b2.r := by
  intro b2 hb
  have hs0 : 0 < min MAX_DT dt := lt_min (by norm_num [MAX_DT]) hdt
  obtain ⟨px, py, vx, vy, r, m⟩ := b
  dsimp only at hvx hvy hpy
  subst hvx hvy hpy
  obtain ⟨px2, v2, heq, hband2⟩ := stepIter_rest_band w h dt r m hdt n px 0
    (fun _ => ⟨by nlinarith, le_rfl⟩)
  rw [heq, List.mem_singleton] at hb
  subst hb
  exact ⟨rfl, rfl⟩

lemma stepIter_one_restBall :
    stepIter 1000 1000 (1 / 60) 1 [restBall] = [bounceBall] := by
  have h0 : stepIter 1000 1000 (1 / 60) 0 [restBall] = [restBall] := rfl
  rw [show (1 : ℕ) = 0 + 1 from rfl, stepIter_succ, h0]
  exact step_restBall

/-- Witness for the amended C9: `restBall` in the 1000×1000 arena with
`dt = 1/60` and one actual step, whose outcome `bounceBall` keeps `vx = 0`
and stays on the floor. -/
theorem floor_rest_amended_witness :
    bounceBall.vx = 0 ∧ bounceBall.py = 1000 - bounceBall.r :=
  floor_rest_amended 1000 1000 (1 / 60) (by norm_num) restBall rfl rfl
    (by norm_num [restBall, Ball.new]) 1 bounceBall
    (by rw [stepIter_one_restBall]; exact List.mem_singleton.mpr rfl)

end

end Canvas
